import Mathlib

/-!
Verification of the multi-strategy product-status extraction core of
`monitor.py` (repository NikonSale).

The development shallowly embeds `parse_status` and its helper functions.
Conventions of the embedding:

*  A parsed JSON value (the result of `json.loads`) is the inductive `Json`.
   Mappings are association lists in declared field order (CPython dicts
   preserve insertion order; `json.loads` never produces duplicate keys).
   JSON numbers are modelled as integers; every number occurring in the
   claims is an integer, and non-integer numbers behave as opaque scalars
   in all modelled code paths.
*  A parsed HTML document (the result of `BeautifulSoup(html, "html.parser")`,
   which accepts arbitrary text without error) is the structure `Doc`: its
   script elements in document order, its meta tags, the first h1 text, its
   buttons, the visible text, and the three price-selector probe results.
   A script element carries the raw text of its string child together with
   the result of attempting to parse that text as JSON (`none` models
   `json.JSONDecodeError`).
*  Python statements that can raise are modelled in `Except PyError`;
   `.error` is an uncaught Python exception escaping `parse_status`.
*  Python truthiness, `dict.get` (where a JSON `null` becomes Python `None`),
   `str.strip`, `str.lower`, and the `in` substring test are modelled
   character-exactly for the ASCII data the claims concern.
*  The decimal price string `f"{cent / (10 ** fd):.{fd}f}"` is modelled by
   exact integer arithmetic (`formatMoney`); the source computes it through
   IEEE-754 double division, which agrees with the exact value on all
   concrete inputs used below.
-/

inductive Json where
  | null
  | bool (b : Bool)
  | num (n : Int)
  | str (s : String)
  | arr (xs : List Json)
  | obj (fields : List (String × Json))

/-- Association-list lookup, modelling `dict[...]`/`dict.get(...)` key access
on a mapping produced by `json.loads` (no duplicate keys). -/
def jlookup : List (String × Json) → String → Option Json
  | [], _ => none
  | (k, v) :: rest, key => if k = key then some v else jlookup rest key

/-- Models the Python `in` test for a key on a mapping. -/
def hasKey (fs : List (String × Json)) (key : String) : Bool :=
  (jlookup fs key).isSome

/-- Python truthiness of a parsed-JSON value. -/
def truthy : Json → Bool
  | .null => false
  | .bool b => b
  | .num n => n != 0
  | .str s => s != ""
  | .arr xs => !xs.isEmpty
  | .obj fs => !fs.isEmpty

/-- Models `d.get(k)` followed by a Python `is not None` test: a JSON `null`
value parses to Python `None`, indistinguishable from a missing key. -/
def pyGetNN (fs : List (String × Json)) (key : String) : Option Json :=
  match jlookup fs key with
  | some .null => none
  | some v => some v
  | none => none

/-- Errors the source can raise: uncaught Python exceptions. -/
inductive PyError where
  | attributeError
  | typeError
  | valueError

-- ### Character-level models of the Python string operations used

/-- The whitespace stripped by Python `str.strip()` (ASCII range). -/
def isSpaceChar (c : Char) : Bool :=
  c = ' ' || c = '\t' || c = '\n' || c = '\x0b' || c = '\x0c' || c = '\r'

def trimChars (l : List Char) : List Char :=
  ((l.dropWhile isSpaceChar).reverse.dropWhile isSpaceChar).reverse

/-- Python `str.strip()`. -/
def pyStrip (s : String) : String := String.mk (trimChars s.data)

/-- Python `str.lower()` (the claims only concern ASCII text). -/
def pyLower (s : String) : String := String.mk (s.data.map Char.toLower)

def substrB : List Char → List Char → Bool
  | n, [] => n.isEmpty
  | n, h :: t => n.isPrefixOf (h :: t) || substrB n t

/-- Python substring test: `needle in hay`. -/
def pySub (needle hay : String) : Bool := substrB needle.data hay.data

/-- Python `s.startswith(p)`. -/
def pyStartsWith (s p : String) : Bool := p.data.isPrefixOf s.data

-- ### Python repr / str of parsed-JSON values

mutual
/-- Python `repr` of a parsed-JSON value (quote escaping inside strings is
not modelled; no modelled code path depends on it). -/
def pyRepr : Json → String
  | .null => "None"
  | .bool b => if b then "True" else "False"
  | .num n => toString n
  | .str s => "\x27" ++ s ++ "\x27"
  | .arr xs => "[" ++ pyReprL xs ++ "]"
  | .obj fs => "\x7b" ++ pyReprF fs ++ "\x7d"
def pyReprL : List Json → String
  | [] => ""
  | [x] => pyRepr x
  | x :: y :: r => pyRepr x ++ ", " ++ pyReprL (y :: r)
def pyReprF : List (String × Json) → String
  | [] => ""
  | [(k, v)] => "\x27" ++ k ++ "\x27: " ++ pyRepr v
  | (k, v) :: y :: r => "\x27" ++ k ++ "\x27: " ++ pyRepr v ++ ", " ++ pyReprF (y :: r)
end

/-- Python `str` of a parsed-JSON value. -/
def pyStr : Json → String
  | .str s => s
  | v => pyRepr v

-- ### Decimal money formatting

def padLeftZeros (s : String) (w : Nat) : String :=
  String.mk (List.replicate (w - s.length) '0' ++ s.data)

/-- The decimal price string `f"{cent_amount / (10 ** fraction_digits):.{fraction_digits}f}"`
computed by exact integer arithmetic: the exact value of
`cent / 10 ^ fd` has at most `fd` fractional digits, so no rounding occurs.
(The source computes the quotient in IEEE-754 double precision, which agrees
with the exact value whenever the double arithmetic round-trips, in
particular on every concrete input appearing in this development.) -/
def formatMoney (cent : Int) (fd : Nat) : String :=
  let a := cent.natAbs
  let sign := if cent < 0 then "-" else ""
  if fd = 0 then sign ++ toString a
  else sign ++ toString (a / 10 ^ fd) ++ "." ++ padLeftZeros (toString (a % 10 ^ fd)) fd

-- ### The parsed-document model

/-- The string child of a `<script>` element: its raw text together with the
result of `json.loads` on that text (`none` models `json.JSONDecodeError`). -/
structure ScriptBody where
  text : String
  json : Option Json

/-- A `<script>` element: its `type` attribute and its `.string` child
(`none` when the element has no single string child). -/
structure Script where
  typeAttr : Option String
  body : Option ScriptBody

/-- A `<meta>` element with a `property` attribute; `content` is `none` when
the attribute is absent. -/
structure MetaTag where
  prop : String
  content : Option String

/-- A `<button>` element: its class tokens and its
`get_text(" ", strip=True)` text. -/
structure Button where
  classes : List String
  text : String

/-- The parsed document, as consumed by `parse_status`:
scripts and metas in document order, the `get_text(strip=True)` of the first
`<h1>` (if any), buttons in document order, `soup.get_text(" ", strip=True)`,
and the stripped text of the first node matched by each of the three price
CSS selectors probed at lines 264-268 of the source (`none` = no match). -/
structure Doc where
  scripts : List Script
  metas : List MetaTag
  h1 : Option String
  buttons : List Button
  fullText : String
  priceNodeTestid : Option String
  priceNodeInformation : Option String
  priceNodeInfo : Option String

def findMeta (metas : List MetaTag) (p : String) : Option MetaTag :=
  metas.find? (fun m => m.prop = p)

-- ### Structured-data locator (`_extract_json_ld`, `_parse_product_from_json_ld`)

/-- The JSON-LD items contributed by one script element: body of the loop of
`_extract_json_ld` (source lines 59-71). A script is visited only when its
`type` attribute equals `application/ld+json`; `if not tag.string: continue`
skips absent or empty bodies; a parse failure skips the element; lists are
flattened one level keeping mappings; a mapping is kept as is. -/
def ldItemsOfScript (sc : Script) : List (List (String × Json)) :=
  if sc.typeAttr = some "application/ld+json" then
    match sc.body with
    | none => []
    | some b =>
      if b.text = "" then []
      else
        match b.json with
        | none => []
        | some (.arr xs) => xs.filterMap (fun e => match e with | .obj fs => some fs | _ => none)
        | some (.obj fs) => [fs]
        | some _ => []
  else []

/-- Models `_extract_json_ld` (source lines 57-72). -/
def _extract_json_ld (scripts : List Script) : List (List (String × Json)) :=
  scripts.flatMap ldItemsOfScript

/-- Models `_parse_product_from_json_ld` (source lines 75-85). Returns
(availability, price, currency) of the first item whose `@type` is
`"Product"`. `offers = entry.get("offers") or {}` keeps any truthy value;
a truthy non-mapping `offers` (or first list element) reaches
`offers.get(...)` and raises `AttributeError`. -/
def _parse_product_from_json_ld :
    List (List (String × Json)) → Except PyError (Option Json × Option String × Option Json)
  | [] => .ok (none, none, none)
  | entry :: rest =>
    let isProduct : Bool :=
      match jlookup entry "@type" with | some (.str s) => s = "Product" | _ => false
    if isProduct then
      let offers0 : Json :=
        match jlookup entry "offers" with
        | none => .obj []
        | some v => if truthy v then v else .obj []
      let offers1 : Json :=
        match offers0 with
        | .arr [] => .obj []
        | .arr (x :: _) => x
        | v => v
      match offers1 with
      | .obj ofs =>
        .ok (pyGetNN ofs "availability",
             (pyGetNN ofs "price").map pyStr,
             pyGetNN ofs "priceCurrency")
      | _ => .error .attributeError
    else _parse_product_from_json_ld rest

-- ### Generic tree matcher (`_find_variant_with_availability`, `_find_sku_objects`)

mutual
/-- Models `_find_variant_with_availability` (source lines 88-105): depth-first
search, mapping fields in declared order before list elements.  A mapping
whose `masterVariant` value is a mapping with an `availability` or `prices`
key yields that value; else a mapping with all of `availability`, `prices`,
`sku` yields itself; else the search recurses.  `if found:` in the source
tests Python truthiness, so an empty mapping returned by a recursive call
would be skipped (modelled by the `isEmpty` test; in fact every returned
mapping carries at least one key). -/
def _find_variant_with_availability : Json → Option (List (String × Json))
  | .obj fs =>
    (match jlookup fs "masterVariant" with
     | some (.obj mfs) =>
       if hasKey mfs "availability" || hasKey mfs "prices" then some mfs
       else if hasKey fs "availability" && hasKey fs "prices" && hasKey fs "sku" then some fs
       else variantInFields fs
     | _ =>
       if hasKey fs "availability" && hasKey fs "prices" && hasKey fs "sku" then some fs
       else variantInFields fs)
  | .arr xs => variantInList xs
  | _ => none
def variantInFields : List (String × Json) → Option (List (String × Json))
  | [] => none
  | (_, v) :: rest =>
    match _find_variant_with_availability v with
    | some found => if found.isEmpty then variantInFields rest else some found
    | none => variantInFields rest
def variantInList : List Json → Option (List (String × Json))
  | [] => none
  | v :: rest =>
    match _find_variant_with_availability v with
    | some found => if found.isEmpty then variantInList rest else some found
    | none => variantInList rest
end

mutual
/-- Models `_find_sku_objects` (source lines 108-118): collects, in depth-first
document order, every mapping whose `sku` field equals the target string
(the Python `==` between a non-string value and a string is `False`). -/
def _find_sku_objects : Json → String → List (List (String × Json))
  | .obj fs, sku =>
    let selfMatch : Bool :=
      match jlookup fs "sku" with | some (.str s) => s = sku | _ => false
    (if selfMatch then [fs] else []) ++ skuInFields fs sku
  | .arr xs, sku => skuInList xs sku
  | _, _ => []
def skuInFields : List (String × Json) → String → List (List (String × Json))
  | [], _ => []
  | (_, v) :: rest, sku => _find_sku_objects v sku ++ skuInFields rest sku
def skuInList : List Json → String → List (List (String × Json))
  | [], _ => []
  | v :: rest, sku => _find_sku_objects v sku ++ skuInList rest sku
end

-- ### Candidate ranking (source lines 137-144)

/-- The sort key of `candidates.sort(key=lambda item: ("price" not in item and
"prices" not in item, "isOnStock" not in item and "availableQuantity" not in
item))`, a pair of booleans compared lexicographically with `False < True`,
encoded as the natural number `2 * fst + snd`. -/
def candKey (o : List (String × Json)) : Nat :=
  (if hasKey o "price" || hasKey o "prices" then 0 else 2)
    + (if hasKey o "isOnStock" || hasKey o "availableQuantity" then 0 else 1)

/-- Stable insertion step: `a` is placed after exactly the leading elements
whose key is strictly smaller, so elements of equal key keep their original
relative order. -/
def insertStable (key : α → Nat) (a : α) : List α → List α
  | [] => [a]
  | b :: bs => if key b < key a then b :: insertStable key a bs else a :: b :: bs

/-- Stable sort by a natural-number key, modelling Python `list.sort(key=...)`
(Timsort is stable). -/
def sortStable (key : α → Nat) : List α → List α
  | [] => []
  | a :: rest => insertStable key a (sortStable key rest)

/-- Models `candidates.sort(key=...)` followed by `candidates[0]` (source
lines 138-144). -/
def selectSkuObj (cands : List (List (String × Json))) : Option (List (String × Json)) :=
  (sortStable candKey cands).head?

-- ### Minor-unit money conversion (source lines 149-155 and 184-188)

/-- The conversion shared verbatim by the SKU path (lines 149-155) and the
variant path (lines 184-188): `centAmount` / `fractionDigits` /
`currencyCode` of a price mapping.  A JSON `null` value parses to Python
`None` and disables the computation like a missing key does, except that a
`null` `fractionDigits` disables it while a missing one defaults to `2`.
Mis-typed fields raise: `10 ** fd` raises `TypeError` for a non-numeric
`fd`; `cent / ...` raises `TypeError` for a non-numeric `cent` (a Python
`bool` is numeric); the format specifier `:.{fd}f` raises `ValueError` for
a negative or boolean `fd`. -/
def moneyFromFields (pfs : List (String × Json)) : Except PyError (Option String × Option Json) :=
  let cent := pyGetNN pfs "centAmount"
  let fd : Option Json :=
    match jlookup pfs "fractionDigits" with
    | none => some (Json.num 2)
    | some .null => none
    | some v => some v
  let cur := pyGetNN pfs "currencyCode"
  match cent, fd with
  | some cv, some fv =>
    match fv with
    | .num n =>
      match cv with
      | .num c => if n < 0 then .error .valueError else .ok (some (formatMoney c n.toNat), cur)
      | .bool b =>
        if n < 0 then .error .valueError
        else .ok (some (formatMoney (if b then 1 else 0) n.toNat), cur)
      | _ => .error .typeError
    | .bool _ =>
      match cv with
      | .num _ | .bool _ => .error .valueError
      | _ => .error .typeError
    | _ => .error .typeError
  | _, _ => .ok (none, cur)

-- ### Inline-script extractor (source lines 121-190)

/-- The SKU branch (source lines 134-159): rank the candidates, take the
top one, convert its `price` mapping if it is a mapping, and read
`isOnStock` by Python truthiness when the key is present. -/
def skuPath (cands : List (List (String × Json))) :
    Except PyError (Option Bool × Option String × Option Json) :=
  let skuObj := (selectSkuObj cands).getD []
  match (match jlookup skuObj "price" with
         | some (.obj pfs) => moneyFromFields pfs
         | _ => Except.ok (none, none)) with
  | .error e => .error e
  | .ok (pv, cur) =>
    let inStock : Option Bool :=
      match jlookup skuObj "isOnStock" with
      | some v => some (truthy v)
      | none => none
    .ok (inStock, pv, cur)

/-- The generator `any(channel.get("isOnStock") and
channel.get("availableQuantity", 0) > 0 for channel in availability.values()
if isinstance(channel, dict))` (source lines 165-169): short-circuits on the
first hit; a missing quantity defaults to `0`; a non-numeric quantity on a
truthy `isOnStock` raises `TypeError`. -/
def anyChannel : List (String × Json) → Except PyError Bool
  | [] => .ok false
  | (_, ch) :: rest =>
    match ch with
    | .obj cfs =>
      let onVal : Json := match jlookup cfs "isOnStock" with | none => .null | some v => v
      if truthy onVal then
        match jlookup cfs "availableQuantity" with
        | none => anyChannel rest
        | some (.num n) => if n > 0 then .ok true else anyChannel rest
        | some (.bool b) => if b then .ok true else anyChannel rest
        | some _ => .error .typeError
      else anyChannel rest
    | _ => anyChannel rest

/-- In-stock from a variant (source lines 163-171):
`availability = variant.get("availability", {}).get("channels", {})` raises
`AttributeError` when `availability` is present but not a mapping (a JSON
`null` gives Python `None`, which also has no `.get`); a falsy channels
value leaves in-stock unknown; a truthy non-mapping channels value raises at
`.values()`. -/
def variantStock (vfs : List (String × Json)) : Except PyError (Option Bool) :=
  let av : Json := match jlookup vfs "availability" with | none => .obj [] | some v => v
  match av with
  | .obj afs =>
    let channels : Json := match jlookup afs "channels" with | none => .obj [] | some v => v
    if truthy channels then
      match channels with
      | .obj chfs =>
        match anyChannel chfs with
        | .error e => .error e
        | .ok b => .ok (some b)
      | _ => .error .attributeError
    else .ok none
  | _ => .error .attributeError

/-- The loop `for entry in prices: if entry.get("country") == "US"` (source
lines 177-180): visits entries in order until a US entry is found, raising
`AttributeError` at the first non-mapping entry it visits. -/
def findUSEntry : List Json → Except PyError (Option (List (String × Json)))
  | [] => .ok none
  | e :: rest =>
    match e with
    | .obj efs =>
      let isUS : Bool := match jlookup efs "country" with | some (.str s) => s = "US" | _ => false
      if isUS then .ok (some efs) else findUSEntry rest
    | _ => .error .attributeError

/-- Price and currency from a variant (source lines 172-188):
`prices = variant.get("prices") or []`; the block runs only when that is a
nonempty list; the US entry is preferred, else the first entry (which the
search loop has already visited, so the non-mapping fallback branch below is
unreachable); `value = price.get("value", {})` then raises on a present
non-mapping value (including JSON `null`, which parses to Python `None`). -/
def variantPrices (vfs : List (String × Json)) : Except PyError (Option String × Option Json) :=
  let prices : Json :=
    match jlookup vfs "prices" with
    | none => .arr []
    | some v => if truthy v then v else .arr []
  match prices with
  | .arr (e0 :: es) =>
    match findUSEntry (e0 :: es) with
    | .error e => .error e
    | .ok foundUS =>
      match (match foundUS with
             | some pfs => Except.ok pfs
             | none =>
               match e0 with
               | .obj fs => Except.ok fs
               | _ => Except.error PyError.attributeError) with
      | .error e => .error e
      | .ok pfs =>
        let valueJ : Json := match jlookup pfs "value" with | none => .obj [] | some v => v
        match valueJ with
        | .obj vfs2 => moneyFromFields vfs2
        | _ => .error .attributeError
  | _ => .ok (none, none)

/-- The variant branch of the inline extractor (source lines 160-189). -/
def variantPath (vfs : List (String × Json)) :
    Except PyError (Option Bool × Option String × Option Json) :=
  match variantStock vfs with
  | .error e => .error e
  | .ok inStock =>
    match variantPrices vfs with
    | .error e => .error e
    | .ok (pv, cur) => .ok (inStock, pv, cur)

/-- One iteration of the script loop of `_extract_from_inline_json` (source
lines 124-189).  `none` means the loop continues with the next script:
no string child, blank text, text not starting with a brace or bracket,
JSON parse failure, or no SKU match and no variant found. -/
def processInlineScript (sc : Script) (sku : Option String) :
    Option (Except PyError (Option Bool × Option String × Option Json)) :=
  match sc.body with
  | none => none
  | some b =>
    let text := pyStrip b.text
    if text = "" then none
    else if !(pyStartsWith text "\x7b" || pyStartsWith text "[") then none
    else
      match b.json with
      | none => none
      | some data =>
        let skuTruthy : Bool := match sku with | some s => s != "" | none => false
        let cands := if skuTruthy then _find_sku_objects data (sku.getD "") else []
        if skuTruthy && !cands.isEmpty then some (skuPath cands)
        else
          match _find_variant_with_availability data with
          | none => none
          | some vfs => some (variantPath vfs)

/-- Models `_extract_from_inline_json` (source lines 121-190): first script that
yields a SKU match or a variant determines the result; if none does, all
three outputs are unknown. -/
def _extract_from_inline_json : List Script → Option String →
    Except PyError (Option Bool × Option String × Option Json)
  | [], _ => .ok (none, none, none)
  | sc :: rest, sku =>
    match processInlineScript sc sku with
    | some r => r
    | none => _extract_from_inline_json rest sku

-- ### SKU from URL (source lines 193-195)

/-- Python `str.split(sep)` for a one-character separator. -/
def splitOnChar (c : Char) : List Char → List (List Char)
  | [] => [[]]
  | x :: xs =>
    match splitOnChar c xs with
    | [] => [[]]
    | g :: gs => if x = c then [] :: g :: gs else (x :: g) :: gs

/-- Python `url.rstrip("/")`. -/
def rstripSlash (l : List Char) : List Char := (l.reverse.dropWhile (· = '/')).reverse

/-- Models `_extract_sku_from_url` (source lines 193-195):
`url.rstrip("/").split("/")[-1]`, or `None` when that is empty. -/
def _extract_sku_from_url (url : String) : Option String :=
  let part := String.mk ((splitOnChar '/' (rstripSlash url.data)).getLastD [])
  if part = "" then none else some part

-- ### Output record

/-- Models `ProductStatus` (source lines 19-26): `in_stock` is tri-state; `price` a
string or unknown; `currency` and `availability_raw` hold whatever parsed
Python value was assigned (a string in all intended cases, hence `Json`). -/
structure ProductStatus where
  name : String
  url : String
  in_stock : Option Bool
  price : Option String
  currency : Option Json
  availability_raw : Option Json

-- ### DOM heuristic extractor (source lines 231-283) and title (201-209)

/-- In-stock from the buy-button text (source lines 232-246): the first
`<button>` whose class tokens contain `btn-yellow`; phrases tested in order
on the lower-cased text. -/
def buttonStock (doc : Doc) : Option Bool :=
  match doc.buttons.find? (fun b => b.classes.contains "btn-yellow") with
  | some b =>
    let t := pyLower b.text
    if pySub "out of stock" t then some false
    else if pySub "add to cart" t || pySub "add to bag" t then some true
    else if pySub "notify" t then some false
    else none
  | none => none

/-- The availability-token override (source lines 250-254): when the raw
availability value is truthy, `availability_raw.lower()` raises
`AttributeError` unless it is a string; a token containing `instock`
(tested first) forces `True`, else one containing `outofstock` forces
`False`, else the previous in-stock value stands. -/
def stockFromToken (a : Option Json) (i : Option Bool) : Except PyError (Option Bool) :=
  match a with
  | none => .ok i
  | some v =>
    if truthy v then
      match v with
      | .str s =>
        let ls := pyLower s
        if pySub "instock" ls then .ok (some true)
        else if pySub "outofstock" ls then .ok (some false)
        else .ok i
      | _ => .error .attributeError
    else .ok i

/-- The full-text keyword fallback (source lines 256-260), applied only when
in-stock is still unknown. -/
def stockFromText (fullText : String) (i : Option Bool) : Option Bool :=
  match i with
  | some b => some b
  | none =>
    let t := pyLower fullText
    if pySub "out of stock" t then some false
    else if pySub "add to cart" t || pySub "add to bag" t then some true
    else none

def firstPriceNode (doc : Doc) : Option String :=
  match doc.priceNodeTestid with
  | some t => some t
  | none =>
    match doc.priceNodeInformation with
    | some t => some t
    | none => doc.priceNodeInfo

def ogPrice (doc : Doc) : Option String :=
  match findMeta doc.metas "og:price:amount" with
  | some m => m.content
  | none => none

/-- The price fallback (source lines 262-278): first matching selector node
text (`or None` maps an empty text to unknown and suppresses the meta
fallback); else the `product:price:amount` meta when present with truthy
content (stripped); else the raw `content` of an `og:price:amount` meta
when that element exists. -/
def domMetaPrice (doc : Doc) : Option String :=
  match firstPriceNode doc with
  | some t => if t = "" then none else some t
  | none =>
    match findMeta doc.metas "product:price:amount" with
    | some m =>
      match m.content with
      | some c => if c = "" then ogPrice doc else some (pyStrip c)
      | none => ogPrice doc
    | none => ogPrice doc

/-- The currency fallback (source lines 280-283). -/
def metaCurrency (doc : Doc) : Option Json :=
  match findMeta doc.metas "product:price:currency" with
  | some m =>
    match m.content with
    | some c => if c = "" then none else some (.str (pyStrip c))
    | none => none
  | none => none

/-- The `title` variable after source lines 201-209: the stripped `og:title`
meta content when present and truthy; when that is falsy, the first h1 text
when truthy, else whatever the meta step left. -/
def titleVar (doc : Doc) : Option String :=
  let t0 : Option String :=
    match findMeta doc.metas "og:title" with
    | some m =>
      match m.content with
      | some c => if c = "" then none else some (pyStrip c)
      | none => none
    | none => none
  let t0Truthy : Bool := match t0 with | some t => t != "" | none => false
  if t0Truthy then t0
  else
    match doc.h1 with
    | some h => if h = "" then t0 else some h
    | none => t0

/-- Models `title or fallback_name` (source line 286). -/
def nameOf (doc : Doc) (fallback_name : String) : String :=
  match titleVar doc with
  | some t => if t = "" then fallback_name else t
  | none => fallback_name

-- ### Status assembler (`parse_status`, source lines 198-292)

/-- The inline-JSON stage and its merge (source lines 218-230): consulted
only when JSON-LD yielded neither availability nor price; each inline field
replaces the current value only when it is not `None`. -/
def afterInline (doc : Doc) (url : String) (a : Option Json) (p : Option String)
    (c : Option Json) : Except PyError (Option Bool × Option String × Option Json) :=
  if a.isNone && p.isNone then
    match _extract_from_inline_json doc.scripts (_extract_sku_from_url url) with
    | .error e => .error e
    | .ok (i, ip, ic) =>
      .ok (i,
           (match ip with | some _ => ip | none => p),
           (match ic with | some _ => ic | none => c))
  else .ok (none, p, c)

/-- The pure tail of `parse_status` (source lines 248-292): full-text stock
fallback, price fallback, currency fallback, title, and record assembly.
Field order: name, url, in_stock, price, currency, availability_raw. -/
def assembleStatus (doc : Doc) (fallback_name url : String) (a : Option Json)
    (p : Option String) (c : Option Json) (i : Option Bool) : ProductStatus :=
  ⟨nameOf doc fallback_name,
   url,
   stockFromText doc.fullText i,
   (match p with | some _ => p | none => domMetaPrice doc),
   (match c with | some _ => c | none => metaCurrency doc),
   a⟩

/-- Models `if in_stock is None:` before the buy-button block (line 232):
the button text is consulted only when in-stock is still unknown. -/
def buttonMerge (doc : Doc) (i1 : Option Bool) : Option Bool :=
  match i1 with
  | some _ => i1
  | none => buttonStock doc

/-- Models `parse_status` (source lines 198-292): JSON-LD locator, conditional
inline-JSON stage, buy-button text (only when in-stock is still unknown),
availability-token override, then the pure fallbacks and assembly. -/
def parse_status (doc : Doc) (fallback_name url : String) : Except PyError ProductStatus :=
  match _parse_product_from_json_ld (_extract_json_ld doc.scripts) with
  | .error e => .error e
  | .ok (a, p, c) =>
    match afterInline doc url a p c with
    | .error e => .error e
    | .ok (i1, p2, c2) =>
      match stockFromToken a (buttonMerge doc i1) with
      | .error e => .error e
      | .ok i3 => .ok (assembleStatus doc fallback_name url a p2 c2 i3)

-- ### Specification-side definitions (worded from the spec, for refinement claims)

/-- The availability component of the structured-data locator, as the claims
name it: the `offers.availability` value of the first JSON-LD Product entry
(`none` when no such entry or field exists, or the field is `null`). -/
def jsonLdAvailability (doc : Doc) : Except PyError (Option Json) :=
  match _parse_product_from_json_ld (_extract_json_ld doc.scripts) with
  | .ok (a, _, _) => .ok a
  | .error e => .error e

/-- The price-precedence policy in the specification wording, amended to the
gating the source implements: JSON-LD price first; the inline-script stage
is consulted only when JSON-LD yielded neither an availability token nor a
price; the DOM selector / meta fallback applies only when the prior stages
yielded no price. -/
def priceSpec (doc : Doc) (url : String) : Option String :=
  match _parse_product_from_json_ld (_extract_json_ld doc.scripts) with
  | .error _ => none
  | .ok (a, p, _) =>
    match p with
    | some pv => some pv
    | none =>
      if a.isNone then
        match _extract_from_inline_json doc.scripts (_extract_sku_from_url url) with
        | .ok (_, some pv, _) => some pv
        | .ok (_, none, _) => domMetaPrice doc
        | .error _ => none
      else domMetaPrice doc

/-- The claim wording for one channel entry: `isOnStock` is `true` and
`availableQuantity` is strictly greater than zero. -/
def channelSpec : Json → Bool
  | .obj cfs =>
    (match jlookup cfs "isOnStock" with | some (.bool true) => true | _ => false)
      && (match jlookup cfs "availableQuantity" with
          | some (.num n) => decide (0 < n)
          | _ => false)
  | _ => false

/-- The claim wording for a variant: unknown when the `availability.channels`
map is absent or empty, else whether at least one channel entry is in
stock. -/
def variantStockSpec (vfs : List (String × Json)) : Option Bool :=
  match jlookup vfs "availability" with
  | some (.obj afs) =>
    match jlookup afs "channels" with
    | some (.obj (c :: cs)) => some ((c :: cs).any (fun p => channelSpec p.2))
    | _ => none
  | _ => none

/-- Claim C5 ranges over channel data in the vocabulary of its own wording:
`isOnStock` boolean when present, `availableQuantity` a number when
present. -/
def channelWT : Json → Bool
  | .obj cfs =>
    (match jlookup cfs "isOnStock" with | none => true | some (.bool _) => true | _ => false)
      && (match jlookup cfs "availableQuantity" with
          | none => true | some (.num _) => true | _ => false)
  | _ => true

/-- Well-typedness of a variant for claim C5: `availability` absent or a
mapping; `channels` absent, a mapping of well-typed entries, or a falsy
non-mapping (which the source treats exactly like an absent map). -/
def channelsWT (vfs : List (String × Json)) : Bool :=
  match jlookup vfs "availability" with
  | none => true
  | some (.obj afs) =>
    match jlookup afs "channels" with
    | none => true
    | some (.obj chfs) => chfs.all (fun p => channelWT p.2)
    | some ch => !truthy ch
  | some _ => false

-- ### Concrete documents and values used by the claim theorems

def emptyDoc : Doc := ⟨[], [], none, [], "", none, none, none⟩

/-- A document whose JSON-LD Product entry carries a truthy non-mapping
`offers` value. -/
def docOffersNum : Doc :=
  ⟨[⟨some "application/ld+json",
     some ⟨"\x7b\"@type\": \"Product\", \"offers\": 7\x7d",
           some (.obj [("@type", .str "Product"), ("offers", .num 7)])⟩⟩],
   [], none, [], "", none, none, none⟩

/-- A document whose JSON-LD availability token contains both `InStock` and
`OutOfStock` as substrings. -/
def docBothTokens : Doc :=
  ⟨[⟨some "application/ld+json",
     some ⟨"\x7b\"@type\": \"Product\", \"offers\": \x7b\"availability\": \"InStockOutOfStock\"\x7d\x7d",
           some (.obj [("@type", .str "Product"),
                       ("offers", .obj [("availability", .str "InStockOutOfStock")])])⟩⟩],
   [], none, [], "", none, none, none⟩

/-- A document whose JSON-LD Product entry yields an availability token but
no price. -/
def docTokenOnly : Doc :=
  ⟨[⟨some "application/ld+json",
     some ⟨"\x7b\"@type\": \"Product\", \"offers\": \x7b\"availability\": \"PreOrder\"\x7d\x7d",
           some (.obj [("@type", .str "Product"),
                       ("offers", .obj [("availability", .str "PreOrder")])])⟩⟩],
   [], none, [], "", none, none, none⟩

/-- An inline script holding a master variant priced 5.00 USD. -/
def scriptVariantFive : Script :=
  ⟨none,
   some ⟨"\x7b\"masterVariant\": \x7b\"prices\": [\x7b\"country\": \"US\", \"value\": \x7b\"centAmount\": 500, \"fractionDigits\": 2, \"currencyCode\": \"USD\"\x7d\x7d]\x7d\x7d",
         some (.obj [("masterVariant",
           .obj [("prices",
             .arr [.obj [("country", .str "US"),
                         ("value", .obj [("centAmount", .num 500),
                                         ("fractionDigits", .num 2),
                                         ("currencyCode", .str "USD")])]])])])⟩⟩

/-- JSON-LD availability token but no price, plus an inline script from
which the inline extractor would derive price 5.00. -/
def docTokenPlusInline : Doc :=
  ⟨(docTokenOnly.scripts ++ [scriptVariantFive]), [], none, [], "", none, none, none⟩

/-- The inline object of claim C7. -/
def objC7 : List (String × Json) :=
  [("sku", .str "ABC123"),
   ("price", .obj [("centAmount", .num 129900), ("fractionDigits", .num 2),
                   ("currencyCode", .str "USD")]),
   ("isOnStock", .bool true)]

def scriptC7 : Script :=
  ⟨none,
   some ⟨"\x7b\"sku\": \"ABC123\", \"price\": \x7b\"centAmount\": 129900, \"fractionDigits\": 2, \"currencyCode\": \"USD\"\x7d, \"isOnStock\": true\x7d",
         some (.obj objC7)⟩⟩

/-- The single-script document of the amended claim C7. -/
def docC7single : Doc := ⟨[scriptC7], [], none, [], "", none, none, none⟩

/-- A competing earlier script that also matches the SKU `ABC123`. -/
def scriptC7rival : Script :=
  ⟨none,
   some ⟨"\x7b\"sku\": \"ABC123\", \"price\": \x7b\"centAmount\": 500, \"fractionDigits\": 2, \"currencyCode\": \"EUR\"\x7d, \"isOnStock\": false\x7d",
         some (.obj [("sku", .str "ABC123"),
                     ("price", .obj [("centAmount", .num 500), ("fractionDigits", .num 2),
                                     ("currencyCode", .str "EUR")]),
                     ("isOnStock", .bool false)])⟩⟩

/-- A document that contains the claim C7 script, preceded by a rival
SKU-matching script. -/
def docC7rival : Doc := ⟨[scriptC7rival, scriptC7], [], none, [], "", none, none, none⟩

/-- The channels example of the specification: one channel, flag true,
quantity zero. -/
def variantQtyZero : List (String × Json) :=
  [("availability",
    .obj [("channels",
      .obj [("c1", .obj [("isOnStock", .bool true), ("availableQuantity", .num 0)])])])]

/-- A document whose JSON-LD availability token is the schema.org InStock
URL. -/
def docSchemaInStock : Doc :=
  ⟨[⟨some "application/ld+json",
     some ⟨"\x7b\"@type\": \"Product\", \"offers\": \x7b\"availability\": \"http://schema.org/InStock\"\x7d\x7d",
           some (.obj [("@type", .str "Product"),
                       ("offers", .obj [("availability", .str "http://schema.org/InStock")])])⟩⟩],
   [], none, [], "", none, none, none⟩

def objWithPrice : List (String × Json) := [("sku", .str "K"), ("price", .num 1)]

def objBare : List (String × Json) := [("sku", .str "K")]

-- ### Claim theorems and supporting lemmas

/-- Decomposition of a successful `parse_status` run into its stages. -/
theorem parse_status_ok_iff (doc : Doc) (fb url : String) (st : ProductStatus) :
    parse_status doc fb url = .ok st ↔
    ∃ a p c i1 p2 c2 i3,
      _parse_product_from_json_ld (_extract_json_ld doc.scripts) = .ok (a, p, c) ∧
      afterInline doc url a p c = .ok (i1, p2, c2) ∧
      stockFromToken a (buttonMerge doc i1) = .ok i3 ∧
      st = assembleStatus doc fb url a p2 c2 i3 := by
  constructor
  · intro h
    unfold parse_status at h
    cases h1 : _parse_product_from_json_ld (_extract_json_ld doc.scripts) with
    | error e => simp only [h1] at h; exact Except.noConfusion h
    | ok t =>
      obtain ⟨a, p, c⟩ := t
      simp only [h1] at h
      cases h2 : afterInline doc url a p c with
      | error e => simp only [h2] at h; exact Except.noConfusion h
      | ok t2 =>
        obtain ⟨i1, p2, c2⟩ := t2
        simp only [h2] at h
        cases h3 : stockFromToken a (buttonMerge doc i1) with
        | error e => simp only [h3] at h; exact Except.noConfusion h
        | ok i3 =>
          simp only [h3] at h
          exact ⟨a, p, c, i1, p2, c2, i3, rfl, h2, h3, (Except.ok.injEq _ _).mp h.symm⟩
  · rintro ⟨a, p, c, i1, p2, c2, i3, h1, h2, h3, rfl⟩
    unfold parse_status
    simp only [h1, h2, h3]

/-- Claim C10: for every input on which `parse_status` returns a status, the
`availability_raw` field is exactly the availability value located by the
JSON-LD stage (unknown when no Product entry or field exists); no later
stage of the pipeline sets or changes it. -/
theorem availability_raw_from_json_ld_only (doc : Doc) (fb url : String) (st : ProductStatus)
    (h : parse_status doc fb url = .ok st) :
    jsonLdAvailability doc = .ok st.availability_raw := by
  obtain ⟨a, p, c, i1, p2, c2, i3, h1, h2, h3, hst⟩ := (parse_status_ok_iff doc fb url st).mp h
  subst hst
  unfold jsonLdAvailability
  simp only [h1]
  rfl

/-- Witness for claim C10 at a concrete document. -/
theorem availability_raw_from_json_ld_only_witness :
    jsonLdAvailability emptyDoc =
      .ok (ProductStatus.availability_raw ⟨"n", "u", none, none, none, none⟩) :=
  availability_raw_from_json_ld_only emptyDoc "n" "u" ⟨"n", "u", none, none, none, none⟩ rfl

/-- Claim C9: extraction is deterministic — two runs of `parse_status` on
the same (document, fallback name, URL) produce the same result.  The claim
holds because the embedding of `parse_status` is a total function of its
three arguments; the source function reads no global or shared mutable
state (its only free names are its parameters and pure library calls). -/
theorem parse_status_deterministic (doc : Doc) (fb url : String)
    (st1 st2 : Except PyError ProductStatus)
    (h1 : parse_status doc fb url = st1) (h2 : parse_status doc fb url = st2) :
    st1 = st2 := h1.symm.trans h2

/-- Witness for claim C9 at a concrete document. -/
theorem parse_status_deterministic_witness :
    (Except.ok (⟨"n", "u", none, none, none, none⟩ : ProductStatus) : Except PyError ProductStatus) =
      Except.ok (⟨"n", "u", none, none, none, none⟩ : ProductStatus) :=
  parse_status_deterministic emptyDoc "n" "u" _ _ rfl rfl

/-- Claim C1 fails on the code: on a document whose JSON-LD Product entry
carries the truthy non-mapping `offers` value `7`, the source evaluates
`offers.get("availability")` on an integer (line 81) and raises
`AttributeError`, contradicting the never-raise contract. -/
theorem parse_status_raises_on_nonmapping_offers :
    parse_status docOffersNum "n" "u" = .error .attributeError := rfl

theorem ldItemsOfScript_malformed (tA : Option String) (t : String) :
    ldItemsOfScript ⟨tA, some ⟨t, none⟩⟩ = [] := by
  unfold ldItemsOfScript
  dsimp only
  split
  · split <;> rfl
  · rfl

theorem processInlineScript_malformed (tA : Option String) (t : String) (sku : Option String) :
    processInlineScript ⟨tA, some ⟨t, none⟩⟩ sku = none := by
  unfold processInlineScript
  dsimp only
  split
  · rfl
  · split <;> rfl

theorem inline_skips_script (pre post : List Script) (m : Script) (sku : Option String)
    (hm : processInlineScript m sku = none) :
    _extract_from_inline_json (pre ++ m :: post) sku =
      _extract_from_inline_json (pre ++ post) sku := by
  induction pre with
  | nil =>
    simp only [List.nil_append, _extract_from_inline_json, hm]
  | cons s rest ih =>
    simp only [List.cons_append, _extract_from_inline_json]
    cases processInlineScript s sku with
    | some r => rfl
    | none => exact ih

/-- Claim C8: a script element whose body fails to parse as JSON is skipped
silently — inserting such a script anywhere leaves the result of both the
JSON-LD locator and the inline-script extractor unchanged, so no error is
surfaced and all remaining script elements are still processed. -/
theorem malformed_script_skipped (pre post : List Script) (tA : Option String)
    (t : String) (sku : Option String) :
    _extract_json_ld (pre ++ ⟨tA, some ⟨t, none⟩⟩ :: post) = _extract_json_ld (pre ++ post) ∧
    _extract_from_inline_json (pre ++ ⟨tA, some ⟨t, none⟩⟩ :: post) sku =
      _extract_from_inline_json (pre ++ post) sku := by
  constructor
  · unfold _extract_json_ld
    simp [ldItemsOfScript_malformed]
  · exact inline_skips_script pre post _ sku (processInlineScript_malformed tA t sku)

theorem afterInline_some (doc : Doc) (url : String) (v : Json) (p : Option String)
    (c : Option Json) : afterInline doc url (some v) p c = .ok (none, p, c) := rfl

theorem stockFromToken_str (s : String) (i : Option Bool) :
    stockFromToken (some (.str s)) i =
      .ok (if pySub "instock" (pyLower s) then some true
           else if pySub "outofstock" (pyLower s) then some false else i) := by
  unfold stockFromToken
  by_cases h : s = ""
  · subst h; rfl
  · have ht : truthy (.str s) = true := by simp [truthy, h]
    dsimp only
    simp only [ht, eq_self_iff_true, if_true]
    split
    · rfl
    · split <;> rfl

/-- Counterexample to claim C2 as stated: the availability token
`InStockOutOfStock` contains `outofstock` (case-insensitively), yet
extraction returns `in_stock = true`, because `instock` is tested first. -/
theorem token_outofstock_not_false_when_instock_present :
    pySub "outofstock" (pyLower "InStockOutOfStock") = true ∧
    parse_status docBothTokens "n" "u" =
      .ok ⟨"n", "u", some true, none, none, some (.str "InStockOutOfStock")⟩ := ⟨rfl, rfl⟩

/-- Claim C2 amended: for every document whose JSON-LD availability token
contains `instock` (case-insensitively) the result has `in_stock = true`;
a token containing `outofstock` and not containing `instock` gives
`in_stock = false`; in both cases the token-derived value overrides any
in-stock value derived earlier from buy-button text. -/
theorem token_stock_override (doc : Doc) (fb url s : String)
    (p : Option String) (c : Option Json) (st : ProductStatus)
    (hld : _parse_product_from_json_ld (_extract_json_ld doc.scripts) =
      .ok (some (.str s), p, c))
    (hst : parse_status doc fb url = .ok st) :
    (pySub "instock" (pyLower s) = true → st.in_stock = some true) ∧
    (pySub "instock" (pyLower s) = false → pySub "outofstock" (pyLower s) = true →
      st.in_stock = some false) := by
  obtain ⟨a, p2, c2, i1, p3, c3, i3, h1, h2, h3, hste⟩ := (parse_status_ok_iff doc fb url st).mp hst
  rw [hld] at h1
  simp only [Except.ok.injEq, Prod.mk.injEq] at h1
  obtain ⟨rfl, rfl, rfl⟩ := h1
  rw [afterInline_some] at h2
  simp only [Except.ok.injEq, Prod.mk.injEq] at h2
  obtain ⟨rfl, rfl, rfl⟩ := h2
  rw [stockFromToken_str] at h3
  simp only [Except.ok.injEq] at h3
  subst hste
  constructor
  · intro hin
    simp only [hin, if_true] at h3
    simp [assembleStatus, stockFromText, h3.symm]
  · intro hnin hout
    simp only [hnin, hout, if_true, Bool.false_eq_true, if_false] at h3
    simp [assembleStatus, stockFromText, h3.symm]

/-- Witness for claim C2 (amended) at a concrete document. -/
theorem token_stock_override_witness :
    (pySub "instock" (pyLower "http://schema.org/InStock") = true →
      (⟨"n", "u", some true, none, none,
        some (.str "http://schema.org/InStock")⟩ : ProductStatus).in_stock = some true) ∧
    (pySub "instock" (pyLower "http://schema.org/InStock") = false →
      pySub "outofstock" (pyLower "http://schema.org/InStock") = true →
      (⟨"n", "u", some true, none, none,
        some (.str "http://schema.org/InStock")⟩ : ProductStatus).in_stock = some false) :=
  token_stock_override docSchemaInStock "n" "u" "http://schema.org/InStock" none none
    ⟨"n", "u", some true, none, none, some (.str "http://schema.org/InStock")⟩ rfl rfl

/-- Counterexample to claim C3 as stated: on a document where the JSON-LD
locator yields no price (but an availability token) and the inline-script
extractor yields the price 5.00, the returned price is unknown — the inline
stage is consulted only when JSON-LD yields neither availability nor
price. -/
theorem inline_price_skipped_when_token_present :
    _parse_product_from_json_ld (_extract_json_ld docTokenPlusInline.scripts) =
      .ok (some (.str "PreOrder"), none, none) ∧
    _extract_from_inline_json docTokenPlusInline.scripts
      (_extract_sku_from_url "http://e/CAM1") = .ok (none, some "5.00", some (.str "USD")) ∧
    parse_status docTokenPlusInline "n" "http://e/CAM1" =
      .ok ⟨"n", "http://e/CAM1", none, none, none, some (.str "PreOrder")⟩ :=
  ⟨rfl, rfl, rfl⟩

/-- Claim C3 amended: the returned price follows `priceSpec` — JSON-LD
price first; the inline-script stage is consulted only when JSON-LD yields
neither availability nor price, and when consulted and yielding a price
that value is returned; the DOM selector / meta fallback applies only when
the prior stages yield no price. -/
theorem price_precedence (doc : Doc) (fb url : String) (st : ProductStatus)
    (h : parse_status doc fb url = .ok st) : st.price = priceSpec doc url := by
  obtain ⟨a, p, c, i1, p2, c2, i3, h1, h2, h3, hste⟩ := (parse_status_ok_iff doc fb url st).mp h
  subst hste
  unfold priceSpec
  simp only [h1]
  unfold afterInline at h2
  by_cases ha : a.isNone
  · by_cases hp : p.isNone
    · simp only [ha, hp, Bool.and_self, if_true] at h2
      cases hin : _extract_from_inline_json doc.scripts (_extract_sku_from_url url) with
      | error e => simp only [hin] at h2; exact Except.noConfusion h2
      | ok t =>
        obtain ⟨i, ip, ic⟩ := t
        simp only [hin] at h2
        simp only [Except.ok.injEq, Prod.mk.injEq] at h2
        obtain ⟨rfl, rfl, rfl⟩ := h2
        obtain rfl : p = none := Option.isNone_iff_eq_none.mp hp
        cases ip with
        | some pv => simp [assembleStatus, ha]
        | none => simp [assembleStatus, ha]
    · -- p = some pv
      obtain ⟨pv, rfl⟩ : ∃ pv, p = some pv := by
        cases p with
        | none => simp at hp
        | some pv => exact ⟨pv, rfl⟩
      simp only [Option.isNone_some, Bool.and_false, Bool.false_eq_true, if_false] at h2
      simp only [Except.ok.injEq, Prod.mk.injEq] at h2
      obtain ⟨rfl, rfl, rfl⟩ := h2
      simp [assembleStatus]
  · -- a = some v
    obtain ⟨v, rfl⟩ : ∃ v, a = some v := by
      cases a with
      | none => simp at ha
      | some v => exact ⟨v, rfl⟩
    simp only [Option.isNone_some, Bool.false_and, Bool.false_eq_true, if_false] at h2
    simp only [Except.ok.injEq, Prod.mk.injEq] at h2
    obtain ⟨rfl, rfl, rfl⟩ := h2
    cases p with
    | some pv => simp [assembleStatus]
    | none => simp [assembleStatus]

/-- Witness for claim C3 (amended) at a concrete document. -/
theorem price_precedence_witness :
    (⟨"n", "u", none, none, none, none⟩ : ProductStatus).price = priceSpec emptyDoc "u" :=
  price_precedence emptyDoc "n" "u" ⟨"n", "u", none, none, none, none⟩ rfl

theorem anyChannel_eq_any (chfs : List (String × Json))
    (h : chfs.all (fun q => channelWT q.2) = true) :
    anyChannel chfs = .ok (chfs.any (fun q => channelSpec q.2)) := by
  induction chfs with
  | nil => rfl
  | cons q rest ih =>
    simp only [List.all_cons, Bool.and_eq_true] at h
    obtain ⟨h1, h2⟩ := h
    obtain ⟨k, ch⟩ := q
    have hrest := ih h2
    cases ch with
    | obj cfs =>
      cases hOn : jlookup cfs "isOnStock" with
      | none => simp [anyChannel, channelSpec, hOn, truthy, hrest]
      | some von =>
        cases von with
        | bool b =>
          cases b with
          | false => simp [anyChannel, channelSpec, hOn, truthy, hrest]
          | true =>
            cases hQ : jlookup cfs "availableQuantity" with
            | none => simp [anyChannel, channelSpec, hOn, hQ, truthy, hrest]
            | some vq =>
              cases vq with
              | num n =>
                by_cases hn : (0 : Int) < n
                · simp [anyChannel, channelSpec, hOn, hQ, truthy, hn]
                · simp [anyChannel, channelSpec, hOn, hQ, truthy, hn, hrest]
              | null => simp [channelWT, hOn, hQ] at h1
              | bool b2 => simp [channelWT, hOn, hQ] at h1
              | str s2 => simp [channelWT, hOn, hQ] at h1
              | arr xs2 => simp [channelWT, hOn, hQ] at h1
              | obj fs2 => simp [channelWT, hOn, hQ] at h1
        | null => simp [channelWT, hOn] at h1
        | num n => simp [channelWT, hOn] at h1
        | str s1 => simp [channelWT, hOn] at h1
        | arr xs1 => simp [channelWT, hOn] at h1
        | obj fs1 => simp [channelWT, hOn] at h1
    | null => simpa [anyChannel, channelSpec] using hrest
    | bool b => simpa [anyChannel, channelSpec] using hrest
    | num n => simpa [anyChannel, channelSpec] using hrest
    | str s1 => simpa [anyChannel, channelSpec] using hrest
    | arr xs => simpa [anyChannel, channelSpec] using hrest

/-- Claim C5: for every variant mapping whose channel data is in the
vocabulary of the claim (availability absent or a mapping; channels absent,
a falsy value, or a mapping whose entries carry boolean `isOnStock` and
numeric `availableQuantity` when present), the computed in-stock value is
unknown when the channels map is absent or empty, and otherwise true if
and only if at least one channel entry has `isOnStock` true and
`availableQuantity` strictly greater than zero. -/
theorem variant_channels_stock (vfs : List (String × Json))
    (h : channelsWT vfs = true) :
    variantStock vfs = .ok (variantStockSpec vfs) := by
  unfold channelsWT at h
  unfold variantStock variantStockSpec
  cases hav : jlookup vfs "availability" with
  | none => rfl
  | some av =>
    simp only [hav] at h ⊢
    cases av with
    | obj afs =>
      cases hch : jlookup afs "channels" with
      | none => simp [hch, truthy]
      | some ch =>
        simp only [hch] at h ⊢
        cases ch with
        | obj chfs =>
          cases chfs with
          | nil => simp [truthy]
          | cons c0 cs => simp [truthy, anyChannel_eq_any _ h]
        | null => simp [truthy]
        | bool b => rw [Bool.not_eq_true'] at h; simp [h]
        | num n => rw [Bool.not_eq_true'] at h; simp [h]
        | str s1 => rw [Bool.not_eq_true'] at h; simp [h]
        | arr xs => rw [Bool.not_eq_true'] at h; simp [h]
    | null => simp at h
    | bool b => simp at h
    | num n => simp at h
    | str s1 => simp at h
    | arr xs => simp at h

/-- Witness for claim C5 at the concrete channels example of the
specification: one channel with the flag true and quantity zero gives
`in_stock = false`. -/
theorem variant_channels_stock_witness :
    variantStock variantQtyZero = .ok (variantStockSpec variantQtyZero) ∧
    variantStockSpec variantQtyZero = some false :=
  ⟨variant_channels_stock variantQtyZero (by decide), rfl⟩

theorem findCongr {p q : α → Bool} (l : List α) (h : ∀ x ∈ l, p x = q x) :
    l.find? p = l.find? q := by
  induction l with
  | nil => rfl
  | cons a rest ih =>
    have ha := h a (List.mem_cons_self a rest)
    by_cases hp : p a = true
    · rw [List.find?_cons_of_pos _ hp, List.find?_cons_of_pos _ (ha ▸ hp)]
    · rw [List.find?_cons_of_neg _ hp, List.find?_cons_of_neg _ (ha ▸ hp)]
      exact ih (fun x hx => h x (List.mem_cons_of_mem a hx))

theorem insertStable_ne_nil (key : α → Nat) (a : α) (l : List α) :
    insertStable key a l ≠ [] := by
  cases l with
  | nil => simp [insertStable]
  | cons b bs => unfold insertStable; split <;> simp

theorem insertStable_head? (key : α → Nat) (a : α) (l : List α) :
    (insertStable key a l).head? =
      some (match l.head? with
            | none => a
            | some b => if key b < key a then b else a) := by
  cases l with
  | nil => rfl
  | cons b bs =>
    unfold insertStable
    by_cases h : key b < key a
    · simp [h]
    · simp [h]

theorem sortStable_head? (key : α → Nat) (l : List α) :
    (sortStable key l).head? =
      l.find? (fun x => l.all (fun y => decide (key x ≤ key y))) := by
  induction l with
  | nil => rfl
  | cons a rest ih =>
    unfold sortStable
    rw [insertStable_head?]
    cases hs : (sortStable key rest).head? with
    | none =>
      have hnil : sortStable key rest = [] := by
        cases hh : sortStable key rest with
        | nil => rfl
        | cons x xs => rw [hh] at hs; simp at hs
      have hrest : rest = [] := by
        cases rest with
        | nil => rfl
        | cons x xs => exact absurd hnil (insertStable_ne_nil key x _)
      subst hrest
      simp [List.find?]
    | some b =>
      rw [hs] at ih
      have hfind : rest.find? (fun x => rest.all (fun y => decide (key x ≤ key y))) = some b :=
        ih.symm
      have hball : (rest.all fun y => decide (key b ≤ key y)) = true := by
        simpa using List.find?_some hfind
      have hmem : b ∈ rest := List.mem_of_find?_eq_some hfind
      by_cases hba : key b < key a
      · have hpa : ((a :: rest).all fun y => decide (key a ≤ key y)) = false := by
          cases hv : ((a :: rest).all fun y => decide (key a ≤ key y)) with
          | false => rfl
          | true =>
            have := List.all_eq_true.mp hv b (List.mem_cons_of_mem a hmem)
            rw [decide_eq_true_eq] at this
            exact absurd this (Nat.not_le.mpr hba)
        have hcong : ∀ x ∈ rest,
            ((a :: rest).all fun y => decide (key x ≤ key y)) =
              (rest.all fun y => decide (key x ≤ key y)) := by
          intro x hx
          rw [List.all_cons]
          cases hqx : rest.all (fun y => decide (key x ≤ key y)) with
          | false => simp
          | true =>
            have hxb := List.all_eq_true.mp hqx b hmem
            rw [decide_eq_true_eq] at hxb
            have hxa : key x ≤ key a := le_of_lt (lt_of_le_of_lt hxb hba)
            simp [hxa]
        rw [List.find?_cons]
        simp only [hpa]
        rw [findCongr rest hcong, hfind]
        simp [hba]
      · have hab : key a ≤ key b := Nat.le_of_not_lt hba
        have hpa : ((a :: rest).all fun y => decide (key a ≤ key y)) = true := by
          rw [List.all_eq_true]
          intro y hy
          rw [decide_eq_true_eq]
          rcases List.mem_cons.mp hy with rfl | hy2
          · exact Nat.le_refl _
          · have := List.all_eq_true.mp hball y hy2
            rw [decide_eq_true_eq] at this
            exact Nat.le_trans hab this
        rw [List.find?_cons]
        simp only [hpa]
        simp [hba]

/-- Claim C6: the selected SKU mapping is the first candidate, in found
order, whose two-key rank (mappings declaring `price` or `prices` first,
then mappings declaring `isOnStock` or `availableQuantity`) is minimal —
a stable ranking preserving first-found order among equal ranks; in
particular, of two SKU-matching mappings where only one carries a price
key, that one is selected regardless of document order. -/
theorem sku_candidate_ranking :
    (∀ cs : List (List (String × Json)),
       selectSkuObj cs = cs.find? (fun c => cs.all (fun c2 => decide (candKey c ≤ candKey c2)))) ∧
    (∀ o1 o2 : List (String × Json),
       (hasKey o1 "price" || hasKey o1 "prices") = true →
       (hasKey o2 "price" || hasKey o2 "prices") = false →
       selectSkuObj [o1, o2] = some o1 ∧ selectSkuObj [o2, o1] = some o1) := by
  constructor
  · intro cs
    exact sortStable_head? candKey cs
  · intro o1 o2 h1 h2
    have hk1 : candKey o1 ≤ 1 := by
      unfold candKey
      rw [h1]
      cases h : (hasKey o1 "isOnStock" || hasKey o1 "availableQuantity") <;> simp [h]
    have hk2 : 2 ≤ candKey o2 := by
      unfold candKey
      rw [h2]
      cases h : (hasKey o2 "isOnStock" || hasKey o2 "availableQuantity") <;> simp [h]
    have hlt : candKey o1 < candKey o2 :=
      Nat.lt_of_le_of_lt hk1 (Nat.lt_of_lt_of_le (by norm_num) hk2)
    constructor
    · simp [selectSkuObj, sortStable, insertStable, Nat.lt_asymm hlt]
    · simp [selectSkuObj, sortStable, insertStable, hlt]

/-- Witness for claim C6 at two concrete candidate mappings. -/
theorem sku_candidate_ranking_witness :
    selectSkuObj [objWithPrice, objBare] = some objWithPrice ∧
    selectSkuObj [objBare, objWithPrice] = some objWithPrice :=
  sku_candidate_ranking.2 objWithPrice objBare (by decide) (by decide)

theorem splitOnChar_ne_nil (c : Char) (l : List Char) : splitOnChar c l ≠ [] := by
  cases l with
  | nil => simp [splitOnChar]
  | cons x xs =>
    unfold splitOnChar
    split
    · simp
    · split <;> simp

theorem splitOnChar_no_sep (c : Char) (l : List Char) (h : l.all (fun x => x != c) = true) :
    splitOnChar c l = [l] := by
  induction l with
  | nil => rfl
  | cons x xs ih =>
    simp only [List.all_cons, Bool.and_eq_true] at h
    obtain ⟨h1, h2⟩ := h
    unfold splitOnChar
    rw [ih h2]
    have hx : ¬(x = c) := by simpa using h1
    simp [hx]

theorem splitOnChar_sep_getLast (tail : List Char) (ht : tail.all (fun x => x != '/') = true)
    (pre : List Char) :
    (splitOnChar '/' (pre ++ '/' :: tail)).getLast? = some tail ∧
    2 ≤ (splitOnChar '/' (pre ++ '/' :: tail)).length := by
  induction pre with
  | nil =>
    rw [List.nil_append]
    unfold splitOnChar
    rw [splitOnChar_no_sep '/' tail ht]
    simp
  | cons x xs ih =>
    obtain ⟨ih1, ih2⟩ := ih
    rw [List.cons_append]
    unfold splitOnChar
    cases hsp : splitOnChar '/' (xs ++ '/' :: tail) with
    | nil => exact absurd hsp (splitOnChar_ne_nil _ _)
    | cons g gs =>
      rw [hsp] at ih1 ih2
      dsimp only
      cases gs with
      | nil => simp at ih2
      | cons g2 gs2 =>
        rw [List.getLast?_cons_cons] at ih1
        by_cases hx : x = '/'
        · rw [if_pos hx]
          constructor
          · rw [List.getLast?_cons_cons, List.getLast?_cons_cons]
            exact ih1
          · simp
        · rw [if_neg hx]
          constructor
          · rw [List.getLast?_cons_cons]
            exact ih1
          · simp

theorem rstripSlash_no_trailing (l : List Char) (c : Char) (h : ¬(c = '/')) :
    rstripSlash (l ++ [c]) = l ++ [c] := by
  unfold rstripSlash
  simp [List.dropWhile_cons, h]

theorem extract_sku_append (pre : List Char) :
    _extract_sku_from_url (String.mk (pre ++ '/' :: "ABC123".data)) = some "ABC123" := by
  have hsplit : pre ++ '/' :: "ABC123".data = (pre ++ '/' :: "ABC12".data) ++ ['3'] := by
    rw [List.append_assoc]
    rfl
  have hr : rstripSlash (pre ++ '/' :: "ABC123".data) = pre ++ '/' :: "ABC123".data := by
    rw [hsplit, rstripSlash_no_trailing _ _ (by decide)]
  have hlast := splitOnChar_sep_getLast "ABC123".data (by decide) pre
  unfold _extract_sku_from_url
  rw [show (String.mk (pre ++ '/' :: "ABC123".data)).data = pre ++ '/' :: "ABC123".data from rfl]
  rw [hr, List.getLastD_eq_getLast?, hlast.1]
  rfl

/-- Counterexample to claim C7 as stated: this document does contain an
inline script whose JSON is exactly the claimed object, and the URL ends in
/ABC123, yet extraction returns 5.00 EUR and out of stock, because an
earlier script in the document also matches the SKU and the extractor stops
at the first script yielding any SKU match. -/
theorem rival_script_preempts_sku_object :
    scriptC7 ∈ docC7rival.scripts ∧
    scriptC7.body.map ScriptBody.json = some (some (.obj objC7)) ∧
    parse_status docC7rival "n" "http://e/ABC123" =
      .ok ⟨"n", "http://e/ABC123", some false, some "5.00", some (.str "EUR"), none⟩ :=
  ⟨List.Mem.tail _ (List.Mem.head _), rfl, rfl⟩

/-- Claim C7 amended: for every document whose only script is an inline
script holding exactly the object of the claim, every fallback name, and
every URL ending in /ABC123, extraction returns `price = "1299.00"`,
`currency = "USD"`, and `in_stock = true`. -/
theorem single_script_sku_extraction (pre : List Char) (fb : String) :
    parse_status docC7single fb (String.mk (pre ++ '/' :: "ABC123".data)) =
      .ok ⟨fb, String.mk (pre ++ '/' :: "ABC123".data), some true, some "1299.00",
           some (.str "USD"), none⟩ := by
  have hsku := extract_sku_append pre
  refine (parse_status_ok_iff _ _ _ _).mpr
    ⟨none, none, none, some true, some "1299.00", some (.str "USD"), some true,
     rfl, ?_, rfl, rfl⟩
  unfold afterInline
  rw [hsku]
  rfl
